import Mathlib

/-!
Verification development for the lodestar beacon-node composition core:
path resolution (`getBeaconPaths`), configuration composition (`deepmerge`
with `isPlainObject`), and the `BeaconNode` orchestrator (construction,
`start`, `stop`).

The TypeScript sources embedded here are
`src/packages/lodestar-cli/src/cmds/beacon/paths.ts`:
the `getBeaconPaths` path resolver and the `BeaconNode` class.
-/

namespace Lodestar

/-! ## Path resolution (`getBeaconPaths`)

`IBeaconPaths` mirrors the TypeScript type of the same name; optional
fields become `Option String`. -/

structure IBeaconPaths where
  beaconDir : String
  peerStoreDir : String
  dbDir : String
  configFile : String
  peerIdFile : String
  enrFile : String
  logFile : Option String
deriving DecidableEq, Repr

/-- The argument type `Partial<IBeaconPaths> & Pick<IGlobalArgs, "rootDir">`:
every path field optional, plus the required `rootDir`. -/
structure BeaconPathsArgs where
  rootDir : String
  dbDir : Option String := none
  peerStoreDir : Option String := none
  configFile : Option String := none
  peerIdFile : Option String := none
  enrFile : Option String := none
  logFile : Option String := none
deriving DecidableEq, Repr

/-- Modelled from the spec: an absolute filesystem path (POSIX), used by the
path-join rule. -/
def isAbsolutePath (p : String) : Bool :=
  match p.data with
  | [] => false
  | c :: _ => c = '/'

/-- Modelled from the spec: `joinIfRelative` (imported by `paths.ts` from
`../../util`, whose source is not among the given files): "if the supplied
value is an absolute filesystem path, return it unchanged; otherwise join it
onto base". -/
def joinIfRelative (base p : String) : String :=
  if isAbsolutePath p then p else base ++ "/" ++ p

/-- Modelled from the spec: `getGlobalPaths` (imported from
`../../paths/global`, not among the given files) yields the node instance's
root directory from the required `rootDir` argument. -/
def getGlobalPathsRootDir (rootDir : String) : String := rootDir

/-- JavaScript `opt || default` on an optional string: `undefined` and the
empty string are falsy, so both fall back to the default. -/
def orDefault (o : Option String) (d : String) : String :=
  match o with
  | some s => if s = "" then d else s
  | none => d

/-- Embedding of `getBeaconPaths` (paths.ts lines 28-46), line by line.
Note line 32 of the source: `joinIfRelative(beaconDir, options.dbDir ||
"peerstore")` — the peer-store path is derived from `options.dbDir`, and the
declared `options.peerStoreDir` field is never read.
`options.logFile && joinIfRelative(...)` keeps `undefined` as `undefined`
and the empty string as itself (falsy short-circuit). -/
def getBeaconPaths (options : BeaconPathsArgs) : IBeaconPaths :=
  let beaconDir := getGlobalPathsRootDir options.rootDir
  let dbDir := joinIfRelative beaconDir (orDefault options.dbDir "chain-db")
  let peerStoreDir := joinIfRelative beaconDir (orDefault options.dbDir "peerstore")
  let configFile := joinIfRelative beaconDir (orDefault options.configFile "beacon.config.json")
  let peerIdFile := joinIfRelative beaconDir (orDefault options.peerIdFile "peer-id.json")
  let enrFile := joinIfRelative beaconDir (orDefault options.enrFile "enr.json")
  let logFile :=
    match options.logFile with
    | none => none
    | some s => if s = "" then some s else some (joinIfRelative beaconDir s)
  { beaconDir := beaconDir
    peerStoreDir := peerStoreDir
    dbDir := dbDir
    configFile := configFile
    peerIdFile := peerIdFile
    enrFile := enrFile
    logFile := logFile }

/-! ## Lifecycle orchestration (`BeaconNode.start` / `BeaconNode.stop`)

The seven owned services, named as in the `BeaconNode` fields.
Spec vocabulary: `db` = storage, `network` = network transport, `eth1` =
chain observer, `chain` = core chain, `opPool` = operation pool, `sync` =
synchronization engine, `rpc` = API server. -/

inductive SvcName where
  | db
  | network
  | eth1
  | chain
  | opPool
  | sync
  | rpc
deriving DecidableEq, Repr

/-- The fixed order of `await ... .start()` calls in `BeaconNode.start`
(source lines 183-189). -/
def startOrder : List SvcName :=
  [SvcName.db, SvcName.network, SvcName.eth1, SvcName.chain,
   SvcName.opPool, SvcName.sync, SvcName.rpc]

/-- The fixed order of `await ... .stop()` calls in `BeaconNode.stop`
(source lines 193-200). -/
def stopOrder : List SvcName :=
  [SvcName.rpc, SvcName.sync, SvcName.opPool, SvcName.chain,
   SvcName.eth1, SvcName.network, SvcName.db]

/-- Universe of JavaScript error values relevant here: a raw error thrown
by a service (identified by a numeric cause id), and the wrapper shapes the
spec talks about (`StartupError` naming a service and wrapping a cause,
`ShutdownError` aggregating service/cause pairs). The source constructs
neither wrapper; the universe makes the spec's statements expressible. -/
inductive JsError where
  | err (cause : Nat)
  | startupError (service : SvcName) (cause : Nat)
  | shutdownError (failures : List (SvcName × Nat))
deriving DecidableEq, Repr

def JsError.isStartupErr : JsError → Bool
  | JsError.startupError _ _ => true
  | _ => false

def JsError.isShutdownErr : JsError → Bool
  | JsError.shutdownError _ => true
  | _ => false

/-- Events observable while the orchestrator runs a lifecycle sequence:
the call of a service's `start`/`stop`, and the resolution of that call. -/
inductive LifecycleEvent where
  | call (s : SvcName)
  | resolved (s : SvcName)
deriving DecidableEq, Repr

/-- Result of running a lifecycle sequence: which services were invoked,
which completed, the full event trace, and the outcome (`none` = the
async method resolved; `some e` = it rejected with the value `e`). -/
structure RunResult where
  invoked : List SvcName
  completed : List SvcName
  trace : List LifecycleEvent
  outcome : Option JsError
deriving DecidableEq, Repr

/-- A service behaviour: `none` means its lifecycle call resolves, `some c`
means it rejects with raw error `JsError.err c`. -/
def runSeq (beh : SvcName → Option Nat) : List SvcName → RunResult
  | [] => ⟨[], [], [], none⟩
  | s :: rest =>
    match beh s with
    | some c => ⟨[s], [], [LifecycleEvent.call s], some (JsError.err c)⟩
    | none =>
      let r := runSeq beh rest
      ⟨s :: r.invoked, s :: r.completed,
       LifecycleEvent.call s :: LifecycleEvent.resolved s :: r.trace,
       r.outcome⟩

/-- `BeaconNode.start` (lines 181-190): a plain sequence of `await`s with no
try/catch, so a rejection propagates unchanged and aborts the sequence. -/
def startRun (beh : SvcName → Option Nat) : RunResult := runSeq beh startOrder

/-- `BeaconNode.stop` (lines 192-201): likewise a plain sequence of
`await`s with no try/catch. -/
def stopRun (beh : SvcName → Option Nat) : RunResult := runSeq beh stopOrder

/-- The trace of a run in which every listed service succeeds. -/
def okTrace (l : List SvcName) : List LifecycleEvent :=
  l.flatMap (fun s => [LifecycleEvent.call s, LifecycleEvent.resolved s])

/-! ## The `BeaconNode` constructor (lines 95-179)

The constructor body is synchronous JavaScript: it runs top to bottom with
no `await`, assigning `this.*` fields in source order. We model each
constructed object by a fresh numeric instance id, and each dependency
captured by a constructor argument by the value of the corresponding
`this.*` field at the moment of capture (`none` = the field is still
`undefined` because its assignment comes later in the body). -/

/-- The `this.conf.api` section consumed at lines 172-177; transport and
api-constructor entries are opaque, kept as numeric ids. -/
structure ApiSection where
  transports : List Nat
  apis : List Nat
deriving DecidableEq, Repr

/-- The `this.*` fields of `BeaconNode` that the constructor body reads,
each `none` until its assignment executes. -/
structure ThisFields where
  reps : Option Nat := none
  db : Option Nat := none
  network : Option Nat := none
  eth1 : Option Nat := none
  opPool : Option Nat := none
  chain : Option Nat := none
deriving DecidableEq, Repr

/-- The dependencies captured by `new SyncRpc(...)` (lines 120-129). -/
structure SyncRpcDeps where
  db : Option Nat
  chain : Option Nat
  network : Option Nat
  reps : Option Nat
deriving DecidableEq, Repr

/-- The dependencies captured by `new OpPool(...)` (lines 144-147). -/
structure OpPoolDeps where
  eth1 : Option Nat
  db : Option Nat
deriving DecidableEq, Repr

/-- The dependencies captured by `new BeaconChain(...)` (lines 148-157). -/
structure ChainDeps where
  db : Option Nat
  eth1 : Option Nat
  opPool : Option Nat
deriving DecidableEq, Repr

/-- The dependencies captured by `new Sync(...)` (lines 158-170). -/
structure SyncDeps where
  db : Option Nat
  eth1 : Option Nat
  chain : Option Nat
  opPool : Option Nat
  network : Option Nat
  reps : Option Nat
  rpc : Option Nat
deriving DecidableEq, Repr

/-- The dependencies captured by each `new Api({}, {...})` (line 175). -/
structure ApiHandlerDeps where
  chain : Option Nat
  db : Option Nat
  eth1 : Option Nat
deriving DecidableEq, Repr

/-- Everything the constructor produced: instance ids of the owned
services, the dependency sets each dependent captured, and the state of the
libp2p promise when the network transport captured it. -/
structure BeaconNodeModel where
  reps : Nat
  db : Nat
  syncRpc : Nat
  syncRpcDeps : SyncRpcDeps
  network : Nat
  networkLibp2pResolvedAtCapture : Bool
  eth1 : Nat
  opPool : Nat
  opPoolDeps : OpPoolDeps
  chain : Nat
  chainDeps : ChainDeps
  sync : Nat
  syncDeps : SyncDeps
  rpcWsArg : Option Nat
  rpcApiDeps : List ApiHandlerDeps
deriving DecidableEq, Repr

/-- The constructor body (lines 95-179), step by step in source order.
`api` is the merged configuration's `api` section (`this.conf.api`).

The libp2p value (lines 117-119) is a promise built by
`createPeerId().then(initializePeerInfo).then(new NodejsNode)`; the
constructor never awaits it, and JavaScript runs `.then` callbacks only
after the current synchronous execution finishes, so at every capture
inside the constructor the promise is still pending
(`networkLibp2pResolvedAtCapture = false` at line 135). -/
def constructBeaconNode (api : ApiSection) : BeaconNodeModel :=
  let st0 : ThisFields := {}
  -- line 106: this.reps = new ReputationStore()
  let repsId := 0
  let st1 := { st0 with reps := some repsId }
  -- lines 107-115: this.db = new BeaconDB({...})
  let dbId := 1
  let st2 := { st1 with db := some dbId }
  -- lines 117-119: const libp2p = createPeerId().then(...).then(...)
  let libp2pResolved := false
  -- lines 120-129: const rpc = new SyncRpc({...}, {config, db: this.db,
  -- chain: this.chain, network: this.network, reps: this.reps})
  let syncRpcId := 2
  let syncRpcDeps : SyncRpcDeps :=
    { db := st2.db, chain := st2.chain, network := st2.network, reps := st2.reps }
  -- lines 130-136: this.network = new Libp2pNetwork({...}, {config, libp2p})
  let networkId := 3
  let st3 := { st2 with network := some networkId }
  -- lines 137-143: this.eth1 = new EthersEth1Notifier({...}, {config})
  let eth1Id := 4
  let st4 := { st3 with eth1 := some eth1Id }
  -- lines 144-147: this.opPool = new OpPool(..., {eth1: this.eth1, db: this.db})
  let opPoolId := 5
  let opPoolDeps : OpPoolDeps := { eth1 := st4.eth1, db := st4.db }
  let st5 := { st4 with opPool := some opPoolId }
  -- lines 148-157: this.chain = new BeaconChain({...}, {config, db, eth1, opPool})
  let chainId := 6
  let chainDeps : ChainDeps := { db := st5.db, eth1 := st5.eth1, opPool := st5.opPool }
  let st6 := { st5 with chain := some chainId }
  -- lines 158-170: this.sync = new Sync({...}, {config, db, eth1, chain,
  -- opPool, network, reps, rpc})
  let syncId := 7
  let syncDeps : SyncDeps :=
    { db := st6.db, eth1 := st6.eth1, chain := st6.chain, opPool := st6.opPool,
      network := st6.network, reps := st6.reps, rpc := some syncRpcId }
  -- lines 172-177: this.rpc = new JSONRPC(this.conf.api, {transports:
  -- [new WSServer(this.conf.api.transports[0])], apis: this.conf.api.apis.map(...)})
  -- JavaScript indexing `transports[0]` yields undefined on an empty array.
  let rpcWsArg := api.transports.head?
  let rpcApiDeps := api.apis.map
    (fun _ => ({ chain := st6.chain, db := st6.db, eth1 := st6.eth1 } : ApiHandlerDeps))
  { reps := repsId
    db := dbId
    syncRpc := syncRpcId
    syncRpcDeps := syncRpcDeps
    network := networkId
    networkLibp2pResolvedAtCapture := libp2pResolved
    eth1 := eth1Id
    opPool := opPoolId
    opPoolDeps := opPoolDeps
    chain := chainId
    chainDeps := chainDeps
    sync := syncId
    syncDeps := syncDeps
    rpcWsArg := rpcWsArg
    rpcApiDeps := rpcApiDeps }

/-! ## Configuration composition (line 96: `deepmerge(defaultConf, opts,
{isMergeableObject: isPlainObject})`)

`deepmerge` is an external dependency and `isPlainObject` comes from
`../util/objects`; neither source is among the given files, so the merge is
modelled from the spec (§4.2): a recursive merge keyed by field name
present in either tree, recursing only when the value at a key is a plain
structural record in both trees, any other value being replaced wholesale
by the override when present; inputs are not mutated (the model is a pure
function returning a new tree).

A configuration value is a primitive leaf, a string, an array, an instance
of a stateful/opaque class (`handle` — e.g. the `loggingOptions` map or an
ethers provider), or a plain structural record of named fields. -/

mutual
inductive ConfigValue : Type where
  | leaf : Nat → ConfigValue
  | str : String → ConfigValue
  | arr : List ConfigValue → ConfigValue
  | handle : Nat → ConfigValue
  | record : Fields → ConfigValue
inductive Fields : Type where
  | nil : Fields
  | cons : String → ConfigValue → Fields → Fields
end

/-- `isPlainObject` from `../util/objects`, modelled from the spec: true
exactly for a plain structural record ("a pure nested mapping carrying no
live behavior"). -/
def isPlainObject : ConfigValue → Bool
  | ConfigValue.record _ => true
  | _ => false

/-- First field with the given key, as JavaScript property lookup. -/
def lookupF : Fields → String → Option ConfigValue
  | Fields.nil, _ => none
  | Fields.cons k v rest, key => if k = key then some v else lookupF rest key

def hasKey (fs : Fields) (k : String) : Bool := (lookupF fs k).isSome

def appendF : Fields → Fields → Fields
  | Fields.nil, gs => gs
  | Fields.cons k v rest, gs => Fields.cons k v (appendF rest gs)

/-- The fields of `os` whose key does not occur in `ds`: the override-only
keys, appended after the merged default keys. -/
def filterNotKeys : Fields → Fields → Fields
  | Fields.nil, _ => Fields.nil
  | Fields.cons k v rest, ds =>
    if hasKey ds k then filterNotKeys rest ds
    else Fields.cons k v (filterNotKeys rest ds)

mutual
/-- Modelled from the spec: the composition `compose(defaults, overrides)`
performed by `deepmerge(..., {isMergeableObject: isPlainObject})`. Recurse
only when both values are plain structural records; otherwise the override
replaces the default wholesale. -/
def mergeVals : ConfigValue → ConfigValue → ConfigValue
  | ConfigValue.record ds, ConfigValue.record os =>
    ConfigValue.record (appendF (mergeInto ds os) (filterNotKeys os ds))
  | _, o => o
/-- Merge each default field with the override at the same key, if any. -/
def mergeInto : Fields → Fields → Fields
  | Fields.nil, _ => Fields.nil
  | Fields.cons k v rest, os =>
    match lookupF os k with
    | some o => Fields.cons k (mergeVals v o) (mergeInto rest os)
    | none => Fields.cons k v (mergeInto rest os)
end

/-- A field list has no repeated key. -/
def nodupF : Fields → Bool
  | Fields.nil => true
  | Fields.cons k _ rest => !hasKey rest k && nodupF rest

mutual
/-- Well-formed configuration tree: every record has pairwise-distinct
keys (as a JavaScript object does) and well-formed field values. -/
def WFv : ConfigValue → Bool
  | ConfigValue.record fs => nodupF fs && WFfields fs
  | _ => true
def WFfields : Fields → Bool
  | Fields.nil => true
  | Fields.cons _ v rest => WFv v && WFfields rest
end

/-- Membership of a key/value pair in a field list. -/
inductive EntryIn : Fields → String → ConfigValue → Prop where
  | head (k : String) (v : ConfigValue) (rest : Fields) :
      EntryIn (Fields.cons k v rest) k v
  | tail (k : String) (v : ConfigValue) (k2 : String) (v2 : ConfigValue)
      (rest : Fields) : EntryIn rest k v → EntryIn (Fields.cons k2 v2 rest) k v

/-! ## Concrete inputs used in the claim theorems -/

/-- Overrides supplying both `dbDir` and `peerStoreDir`. -/
def pathArgsBothOverrides : BeaconPathsArgs :=
  { rootDir := "/data/node1"
    dbDir := some "/custom/storage"
    peerStoreDir := some "ps" }

/-- Overrides supplying only `peerStoreDir`. -/
def pathArgsPeerStoreOnly : BeaconPathsArgs :=
  { rootDir := "/data/node1"
    peerStoreDir := some "ps" }

/-- The field list of a record value (`Fields.nil` on non-records). -/
def recordFieldsOf : ConfigValue → Fields
  | ConfigValue.record fs => fs
  | _ => Fields.nil

/-- A small default tree: a structural `db` section and an opaque `eth1`
provider handle. -/
def sampleDefaults : Fields :=
  Fields.cons "db" (ConfigValue.record
      (Fields.cons "name" (ConfigValue.str "chain-db") Fields.nil))
    (Fields.cons "eth1" (ConfigValue.handle 0) Fields.nil)

/-- A small override tree: a structural `db` override, a plain-looking
record at the opaque `eth1` key, and an extra key. -/
def sampleOverrides : Fields :=
  Fields.cons "db" (ConfigValue.record
      (Fields.cons "name" (ConfigValue.str "other-db") Fields.nil))
    (Fields.cons "eth1" (ConfigValue.record
        (Fields.cons "url" (ConfigValue.leaf 1) Fields.nil))
      (Fields.cons "extra" (ConfigValue.leaf 9) Fields.nil))

/-! ## Concrete service behaviours used in the lifecycle theorems -/

/-- Every service's lifecycle call resolves. -/
def behAllOk : SvcName → Option Nat := fun _ => none

/-- The chain observer's `start` rejects with cause 7; all others resolve. -/
def behEth1StartFails : SvcName → Option Nat :=
  fun s => if s = SvcName.eth1 then some 7 else none

/-- The core chain's `start` rejects with cause 5; all others resolve. -/
def behChainStartFails : SvcName → Option Nat :=
  fun s => if s = SvcName.chain then some 5 else none

/-- The API server's `stop` rejects with cause 3; all others resolve. -/
def behRpcStopFails : SvcName → Option Nat :=
  fun s => if s = SvcName.rpc then some 3 else none

/-- The synchronization engine's `stop` rejects with cause 2; all others
resolve. -/
def behSyncStopFails : SvcName → Option Nat :=
  fun s => if s = SvcName.sync then some 2 else none

/-- The operation pool's `stop` rejects with cause 9; all others resolve. -/
def behOpPoolStopFails : SvcName → Option Nat :=
  fun s => if s = SvcName.opPool then some 9 else none

/-! ## Lifecycle run lemmas -/

/-- Running a sequence all of whose services succeed invokes and completes
each in order, with each resolution in the trace before the next call. -/
theorem runSeq_allOk (beh : SvcName → Option Nat) :
    ∀ l : List SvcName, (∀ s ∈ l, beh s = none) →
      runSeq beh l = ⟨l, l, okTrace l, none⟩ := by
  intro l
  induction l with
  | nil => intro _; rfl
  | cons s rest ih =>
    intro h
    have hs : beh s = none := h s (List.mem_cons_self s rest)
    have hr := ih (fun t ht => h t (List.mem_cons_of_mem s ht))
    simp [runSeq, hs, hr, okTrace]

/-- Running a sequence that first fails at `s` (after the all-succeeding
prefix `pre`) invokes exactly `pre ++ [s]`, completes exactly `pre`, and
rejects with the raw error of `s` — the services after `s` are never
reached. -/
theorem runSeq_failAt (beh : SvcName → Option Nat) :
    ∀ (pre : List SvcName) (s : SvcName) (post : List SvcName) (c : Nat),
      (∀ t ∈ pre, beh t = none) → beh s = some c →
      runSeq beh (pre ++ s :: post) =
        ⟨pre ++ [s], pre, okTrace pre ++ [LifecycleEvent.call s],
         some (JsError.err c)⟩ := by
  intro pre
  induction pre with
  | nil =>
    intro s post c _ hs
    simp only [List.nil_append, runSeq, hs, okTrace, List.flatMap_nil]
  | cons t rest ih =>
    intro s post c hpre hs
    have ht : beh t = none := hpre t (List.mem_cons_self t rest)
    have hr := ih s post c (fun u hu => hpre u (List.mem_cons_of_mem t hu)) hs
    rw [List.cons_append]
    simp only [runSeq, ht]
    rw [hr]
    simp [okTrace]

/-- Combination used by the start/stop failure theorems: on a duplicate-free
order decomposed as `pre ++ s :: post` with `pre` succeeding and `s`
failing, the run result is as in `runSeq_failAt` and no service of `post`
is ever invoked. -/
theorem runSeq_fail_prefix (beh : SvcName → Option Nat)
    (order pre : List SvcName) (s : SvcName) (post : List SvcName) (c : Nat)
    (horder : order = pre ++ s :: post) (hnd : order.Nodup)
    (hpre : ∀ t ∈ pre, beh t = none) (hs : beh s = some c) :
    runSeq beh order =
      ⟨pre ++ [s], pre, okTrace pre ++ [LifecycleEvent.call s],
       some (JsError.err c)⟩ ∧
    ∀ t ∈ post, t ∉ (runSeq beh order).invoked := by
  subst horder
  have heq := runSeq_failAt beh pre s post c hpre hs
  refine ⟨heq, ?_⟩
  intro t ht
  rw [heq]
  rw [List.nodup_append] at hnd
  obtain ⟨-, hnd2, hdisj⟩ := hnd
  have hts : t ≠ s := by
    rintro rfl
    exact (List.nodup_cons.mp hnd2).1 ht
  have htpre : t ∉ pre := fun htp => hdisj htp (List.mem_cons_of_mem s ht)
  simp [htpre, hts]

/-! ## Merge lemmas -/

theorem appendF_nil (fs : Fields) : appendF fs Fields.nil = fs :=
  match fs with
  | Fields.nil => rfl
  | Fields.cons k v rest => by rw [appendF, appendF_nil rest]

theorem mergeInto_nil (ds : Fields) : mergeInto ds Fields.nil = ds :=
  match ds with
  | Fields.nil => rfl
  | Fields.cons k v rest => by
    simp only [mergeInto, lookupF]
    rw [mergeInto_nil rest]

theorem lookupF_appendF_left (a b : Fields) (k : String) (v : ConfigValue)
    (h : lookupF a k = some v) : lookupF (appendF a b) k = some v :=
  match a with
  | Fields.nil => by simp [lookupF] at h
  | Fields.cons k1 v1 rest => by
    by_cases hk : k1 = k
    · rw [lookupF, if_pos hk] at h
      rw [appendF, lookupF, if_pos hk]
      exact h
    · rw [lookupF, if_neg hk] at h
      rw [appendF, lookupF, if_neg hk]
      exact lookupF_appendF_left rest b k v h

theorem hasKey_appendF (a b : Fields) (k : String) :
    hasKey (appendF a b) k = (hasKey a k || hasKey b k) :=
  match a with
  | Fields.nil => by simp [appendF, hasKey, lookupF]
  | Fields.cons k1 v1 rest => by
    by_cases hk : k1 = k
    · simp [appendF, hasKey, lookupF, hk]
    · simp only [appendF, hasKey, lookupF, if_neg hk]
      exact hasKey_appendF rest b k

theorem hasKey_mergeInto (ds os : Fields) (k : String) :
    hasKey (mergeInto ds os) k = hasKey ds k :=
  match ds with
  | Fields.nil => rfl
  | Fields.cons k1 v1 rest => by
    by_cases hk : k1 = k
    · subst hk
      cases hlk : lookupF os k1 <;>
        simp [mergeInto, hlk, hasKey, lookupF]
    · cases hlk : lookupF os k1 <;>
        simp only [mergeInto, hlk, hasKey, lookupF, if_neg hk] <;>
        exact hasKey_mergeInto rest os k

theorem entryIn_hasKey {fs : Fields} {k : String} {v : ConfigValue}
    (h : EntryIn fs k v) : hasKey fs k = true := by
  induction h with
  | head k v rest => simp [hasKey, lookupF]
  | tail k v k2 v2 rest hrec ih =>
    by_cases hk : k2 = k
    · simp [hasKey, lookupF, hk]
    · simp only [hasKey, lookupF, if_neg hk]
      exact ih

theorem lookupF_entryIn {fs : Fields} {k : String} {v : ConfigValue} :
    lookupF fs k = some v → EntryIn fs k v :=
  match fs with
  | Fields.nil => by simp [lookupF]
  | Fields.cons k1 v1 rest => by
    intro h
    by_cases hk : k1 = k
    · subst hk
      rw [lookupF, if_pos rfl] at h
      injection h with hv
      subst hv
      exact EntryIn.head _ _ _
    · rw [lookupF, if_neg hk] at h
      exact EntryIn.tail k v k1 v1 rest (lookupF_entryIn h)

theorem nodupF_lookupF {fs : Fields} {k : String} {v : ConfigValue}
    (hnd : nodupF fs = true) (h : EntryIn fs k v) : lookupF fs k = some v := by
  induction h with
  | head k v rest => simp [lookupF]
  | tail k v k2 v2 rest hrec ih =>
    simp only [nodupF, Bool.and_eq_true, Bool.not_eq_true'] at hnd
    have hk : k2 ≠ k := by
      rintro rfl
      have h1 := hnd.1
      rw [entryIn_hasKey hrec] at h1
      exact Bool.noConfusion h1
    rw [lookupF, if_neg hk]
    exact ih hnd.2

theorem WFfields_entry {fs : Fields} {k : String} {v : ConfigValue}
    (hw : WFfields fs = true) (h : EntryIn fs k v) : WFv v = true := by
  induction h with
  | head k v rest =>
    simp only [WFfields, Bool.and_eq_true] at hw
    exact hw.1
  | tail k v k2 v2 rest hrec ih =>
    simp only [WFfields, Bool.and_eq_true] at hw
    exact ih hw.2

theorem entryIn_filterNotKeys {os ds : Fields} {k : String} {v : ConfigValue} :
    EntryIn (filterNotKeys os ds) k v → EntryIn os k v :=
  match os with
  | Fields.nil => by intro h; cases h
  | Fields.cons k1 v1 rest => by
    intro h
    rw [filterNotKeys] at h
    by_cases hk : hasKey ds k1 = true
    · rw [if_pos hk] at h
      exact EntryIn.tail k v k1 v1 rest (entryIn_filterNotKeys h)
    · rw [if_neg hk] at h
      cases h with
      | head => exact EntryIn.head _ _ _
      | tail _ _ _ _ _ htl =>
        exact EntryIn.tail k v k1 v1 rest (entryIn_filterNotKeys htl)

theorem entryIn_filterNotKeys_of {os ds : Fields} {k : String} {v : ConfigValue}
    (h : EntryIn os k v) (hk : hasKey ds k = false) :
    EntryIn (filterNotKeys os ds) k v := by
  induction h with
  | head k v rest =>
    rw [filterNotKeys, if_neg (by rw [hk]; exact Bool.false_ne_true)]
    exact EntryIn.head k v (filterNotKeys rest ds)
  | tail k v k2 v2 rest hrec ih =>
    rw [filterNotKeys]
    by_cases h2 : hasKey ds k2 = true
    · rw [if_pos h2]
      exact ih hk
    · rw [if_neg h2]
      exact EntryIn.tail k v k2 v2 (filterNotKeys rest ds) (ih hk)

theorem filterNotKeys_eq_nil (os m : Fields)
    (h : ∀ k v, EntryIn os k v → hasKey m k = true) :
    filterNotKeys os m = Fields.nil :=
  match os with
  | Fields.nil => rfl
  | Fields.cons k v rest => by
    rw [filterNotKeys, if_pos (h k v (EntryIn.head k v rest))]
    exact filterNotKeys_eq_nil rest m
      (fun k2 v2 h2 => h k2 v2 (EntryIn.tail k2 v2 k v rest h2))

theorem mergeInto_appendF (a b os : Fields) :
    mergeInto (appendF a b) os = appendF (mergeInto a os) (mergeInto b os) :=
  match a with
  | Fields.nil => rfl
  | Fields.cons k v rest => by
    cases hlk : lookupF os k <;>
      simp only [appendF, mergeInto, hlk] <;>
      rw [mergeInto_appendF rest b os]

theorem mergeInto_pointwise_id (bs os : Fields)
    (h : ∀ k v, EntryIn bs k v → lookupF os k = some v ∧ mergeVals v v = v) :
    mergeInto bs os = bs :=
  match bs with
  | Fields.nil => rfl
  | Fields.cons k v rest => by
    obtain ⟨hlk, hmv⟩ := h k v (EntryIn.head k v rest)
    simp only [mergeInto, hlk, hmv]
    rw [mergeInto_pointwise_id rest os
      (fun k2 v2 h2 => h k2 v2 (EntryIn.tail k2 v2 k v rest h2))]

theorem mergeInto_pointwise_idem (ds os : Fields)
    (h : ∀ k v o, EntryIn ds k v → lookupF os k = some o →
      mergeVals (mergeVals v o) o = mergeVals v o) :
    mergeInto (mergeInto ds os) os = mergeInto ds os :=
  match ds with
  | Fields.nil => rfl
  | Fields.cons k v rest => by
    have hrest := mergeInto_pointwise_idem rest os
      (fun k2 v2 o2 h2 ho2 => h k2 v2 o2 (EntryIn.tail k2 v2 k v rest h2) ho2)
    cases hlk : lookupF os k with
    | some o =>
      simp only [mergeInto, hlk]
      rw [h k v o (EntryIn.head k v rest) hlk, hrest]
    | none =>
      simp only [mergeInto, hlk]
      rw [hrest]

theorem entryIn_sizeOf {fs : Fields} {k : String} {v : ConfigValue}
    (h : EntryIn fs k v) : sizeOf v < sizeOf fs := by
  induction h with
  | head k v rest => simp; omega
  | tail k v k2 v2 rest hrec ih =>
    simp only [Fields.cons.sizeOf_spec]
    omega

theorem mergeVals_record_record (ds os : Fields) :
    mergeVals (ConfigValue.record ds) (ConfigValue.record os) =
      ConfigValue.record (appendF (mergeInto ds os) (filterNotKeys os ds)) :=
  rfl

theorem mergeVals_right_nonplain (d o : ConfigValue)
    (h : isPlainObject d = false ∨ isPlainObject o = false) :
    mergeVals d o = o := by
  cases d <;> cases o <;> simp_all [mergeVals, isPlainObject]

theorem sizeOf_fields_lt_record (fs : Fields) :
    sizeOf fs < sizeOf (ConfigValue.record fs) := by
  simp only [ConfigValue.record.sizeOf_spec]
  omega

theorem mergeVals_self_aux :
    ∀ (n : Nat) (x : ConfigValue), sizeOf x < n → WFv x = true →
      mergeVals x x = x := by
  intro n
  induction n with
  | zero => intro x hx _; exact absurd hx (Nat.not_lt_zero _)
  | succ n ih =>
    intro x hx hw
    cases x with
    | leaf c => rfl
    | str s => rfl
    | arr xs => rfl
    | handle i => rfl
    | record fs =>
      simp only [WFv, Bool.and_eq_true] at hw
      rw [mergeVals_record_record,
        filterNotKeys_eq_nil fs fs (fun k v hv => entryIn_hasKey hv),
        appendF_nil,
        mergeInto_pointwise_id fs fs (fun k v hv =>
          ⟨nodupF_lookupF hw.1 hv,
           ih v (by
             have h1 := entryIn_sizeOf hv
             have h2 := sizeOf_fields_lt_record fs
             omega) (WFfields_entry hw.2 hv)⟩)]

/-- Merging a well-formed tree into itself is the identity. -/
theorem mergeVals_self (x : ConfigValue) (h : WFv x = true) :
    mergeVals x x = x :=
  mergeVals_self_aux (sizeOf x + 1) x (Nat.lt_succ_self _) h

theorem mergeVals_idem_aux :
    ∀ (n : Nat) (d o : ConfigValue), sizeOf o < n → WFv o = true →
      mergeVals (mergeVals d o) o = mergeVals d o := by
  intro n
  induction n with
  | zero => intro d o ho _; exact absurd ho (Nat.not_lt_zero _)
  | succ n ih =>
    intro d o ho hw
    by_cases hop : isPlainObject o = true
    case neg =>
      have hno : isPlainObject o = false := by
        revert hop; cases isPlainObject o <;> simp
      rw [mergeVals_right_nonplain d o (Or.inr hno),
        mergeVals_right_nonplain o o (Or.inr hno)]
    case pos =>
      cases o with
      | record os =>
        cases d with
        | record ds =>
          simp only [WFv, Bool.and_eq_true] at hw
          rw [mergeVals_record_record ds os]
          rw [mergeVals_record_record]
          have hBnil :
              filterNotKeys os
                (appendF (mergeInto ds os) (filterNotKeys os ds)) =
                Fields.nil := by
            apply filterNotKeys_eq_nil
            intro k v hv
            rw [hasKey_appendF, hasKey_mergeInto]
            cases hk : hasKey ds k with
            | true => rfl
            | false =>
              have hB := entryIn_hasKey (entryIn_filterNotKeys_of hv hk)
              rw [hB, Bool.or_true]
          have hA : mergeInto (mergeInto ds os) os = mergeInto ds os := by
            apply mergeInto_pointwise_idem
            intro k v o2 hv hlk
            have ho2 : EntryIn os k o2 := lookupF_entryIn hlk
            apply ih
            · have h1 := entryIn_sizeOf ho2
              have h2 := sizeOf_fields_lt_record os
              omega
            · exact WFfields_entry hw.2 ho2
          have hB : mergeInto (filterNotKeys os ds) os = filterNotKeys os ds := by
            apply mergeInto_pointwise_id
            intro k v hv
            have hos : EntryIn os k v := entryIn_filterNotKeys hv
            refine ⟨nodupF_lookupF hw.1 hos, ?_⟩
            apply mergeVals_self_aux (n + 1)
            · have h1 := entryIn_sizeOf hos
              have h2 := sizeOf_fields_lt_record os
              omega
            · exact WFfields_entry hw.2 hos
          rw [hBnil, appendF_nil, mergeInto_appendF, hA, hB]
        | leaf c =>
          rw [show mergeVals (ConfigValue.leaf c) (ConfigValue.record os) =
            ConfigValue.record os from rfl]
          exact mergeVals_self_aux (n + 1) (ConfigValue.record os) ho hw
        | str s =>
          rw [show mergeVals (ConfigValue.str s) (ConfigValue.record os) =
            ConfigValue.record os from rfl]
          exact mergeVals_self_aux (n + 1) (ConfigValue.record os) ho hw
        | arr xs =>
          rw [show mergeVals (ConfigValue.arr xs) (ConfigValue.record os) =
            ConfigValue.record os from rfl]
          exact mergeVals_self_aux (n + 1) (ConfigValue.record os) ho hw
        | handle i =>
          rw [show mergeVals (ConfigValue.handle i) (ConfigValue.record os) =
            ConfigValue.record os from rfl]
          exact mergeVals_self_aux (n + 1) (ConfigValue.record os) ho hw
      | leaf c => exact absurd hop (by simp [isPlainObject])
      | str s => exact absurd hop (by simp [isPlainObject])
      | arr xs => exact absurd hop (by simp [isPlainObject])
      | handle i => exact absurd hop (by simp [isPlainObject])

/-- Re-applying a merge with the same well-formed override tree changes
nothing. -/
theorem mergeVals_idem (d o : ConfigValue) (h : WFv o = true) :
    mergeVals (mergeVals d o) o = mergeVals d o :=
  mergeVals_idem_aux (sizeOf o + 1) d o (Nat.lt_succ_self _) h

theorem lookupF_mergeInto_both (ds : Fields) :
    ∀ (os : Fields) (k : String) (dv ov : ConfigValue),
      lookupF ds k = some dv → lookupF os k = some ov →
      lookupF (mergeInto ds os) k = some (mergeVals dv ov) :=
  match ds with
  | Fields.nil => by intro os k dv ov hd; simp [lookupF] at hd
  | Fields.cons k1 v1 rest => by
    intro os k dv ov hd ho
    by_cases hk : k1 = k
    · subst hk
      rw [lookupF, if_pos rfl] at hd
      injection hd with hdv
      subst hdv
      simp [mergeInto, ho, lookupF]
    · rw [lookupF, if_neg hk] at hd
      have hrest := lookupF_mergeInto_both rest os k dv ov hd ho
      cases hlk : lookupF os k1 <;>
        simp only [mergeInto, hlk, lookupF, if_neg hk] <;>
        exact hrest

/-! ## Claim theorems -/

/-- Claim C1 (code bug): the resolved `peerStoreDir` is derived from the
`dbDir` override, not from the `peerStoreDir` override. At
`rootDir = "/data/node1"`, `dbDir = "/custom/storage"`,
`peerStoreDir = "ps"`, the code yields `peerStoreDir = "/custom/storage"`
(equal to `dbDir`), not `"/data/node1/ps"`; and with only
`peerStoreDir = "ps"` supplied the override is ignored and the default
`"peerstore"` is used. -/
theorem getBeaconPaths_peerStoreDir_from_dbDir :
    (getBeaconPaths pathArgsBothOverrides).peerStoreDir = "/custom/storage" ∧
    (getBeaconPaths pathArgsBothOverrides).peerStoreDir ≠ "/data/node1/ps" ∧
    (getBeaconPaths pathArgsBothOverrides).peerStoreDir =
      (getBeaconPaths pathArgsBothOverrides).dbDir ∧
    (getBeaconPaths pathArgsPeerStoreOnly).peerStoreDir =
      "/data/node1/peerstore" := by
  refine ⟨rfl, ?_, rfl, rfl⟩
  decide

/-- Claim C2, counterexample: when the chain observer's `start` rejects
(cause 7), `start()` rejects with that raw error value itself — not with a
`StartupError` identifying the failing service — after starting exactly
storage and network transport. -/
theorem startRun_rejects_raw_not_startupError :
    (startRun behEth1StartFails).outcome = some (JsError.err 7) ∧
    (JsError.err 7).isStartupErr = false ∧
    (startRun behEth1StartFails).invoked =
      [SvcName.db, SvcName.network, SvcName.eth1] ∧
    (startRun behEth1StartFails).completed = [SvcName.db, SvcName.network] := by
  decide

/-- Claim C2, amended: if, in the fixed start order, the start of service
`s` fails with cause `c` after an all-succeeding prefix `pre`, then
`start()` rejects with `s`'s own raw error (no `StartupError` wrapper is
constructed), exactly the services of `pre` have been started, `s` was
invoked, and the services after `s` are never invoked. -/
theorem startRun_fail_prefix (beh : SvcName → Option Nat)
    (pre : List SvcName) (s : SvcName) (post : List SvcName) (c : Nat)
    (horder : startOrder = pre ++ s :: post)
    (hpre : ∀ t ∈ pre, beh t = none) (hs : beh s = some c) :
    startRun beh =
      ⟨pre ++ [s], pre, okTrace pre ++ [LifecycleEvent.call s],
       some (JsError.err c)⟩ ∧
    (JsError.err c).isStartupErr = false ∧
    ∀ t ∈ post, t ∉ (startRun beh).invoked := by
  have h := runSeq_fail_prefix beh startOrder pre s post c horder
    (by decide) hpre hs
  exact ⟨h.1, rfl, h.2⟩

/-- Witness for `startRun_fail_prefix`: the core chain fails with cause 5
after storage, network transport and chain observer started. -/
theorem startRun_fail_prefix_witness :
    startRun behChainStartFails =
      ⟨[SvcName.db, SvcName.network, SvcName.eth1] ++ [SvcName.chain],
       [SvcName.db, SvcName.network, SvcName.eth1],
       okTrace [SvcName.db, SvcName.network, SvcName.eth1] ++
         [LifecycleEvent.call SvcName.chain],
       some (JsError.err 5)⟩ ∧
    (JsError.err 5).isStartupErr = false ∧
    ∀ t ∈ [SvcName.opPool, SvcName.sync, SvcName.rpc],
      t ∉ (startRun behChainStartFails).invoked :=
  startRun_fail_prefix behChainStartFails
    [SvcName.db, SvcName.network, SvcName.eth1] SvcName.chain
    [SvcName.opPool, SvcName.sync, SvcName.rpc] 5 rfl (by decide) rfl

/-- Claim C3, counterexample: when the API server's `stop` rejects (cause
3), `stop()` rejects immediately with that raw error: the other six
services' stops — storage among them — are never attempted, and no
`ShutdownError` aggregate is built. -/
theorem stopRun_aborts_at_first_failure :
    (stopRun behRpcStopFails).invoked = [SvcName.rpc] ∧
    SvcName.db ∉ (stopRun behRpcStopFails).invoked ∧
    SvcName.network ∉ (stopRun behRpcStopFails).invoked ∧
    (stopRun behRpcStopFails).outcome = some (JsError.err 3) ∧
    (JsError.err 3).isShutdownErr = false := by
  decide

/-- Claim C3, amended: `stop()` attempts the services in reverse start
order only up to the first failure: if service `s`'s stop fails with cause
`c` after the all-succeeding prefix `pre`, the call rejects with `s`'s own
raw error (no `ShutdownError` aggregate), exactly the services of `pre`
were stopped, and the services after `s` are never attempted. -/
theorem stopRun_fail_prefix (beh : SvcName → Option Nat)
    (pre : List SvcName) (s : SvcName) (post : List SvcName) (c : Nat)
    (horder : stopOrder = pre ++ s :: post)
    (hpre : ∀ t ∈ pre, beh t = none) (hs : beh s = some c) :
    stopRun beh =
      ⟨pre ++ [s], pre, okTrace pre ++ [LifecycleEvent.call s],
       some (JsError.err c)⟩ ∧
    (JsError.err c).isShutdownErr = false ∧
    ∀ t ∈ post, t ∉ (stopRun beh).invoked := by
  have h := runSeq_fail_prefix beh stopOrder pre s post c horder
    (by decide) hpre hs
  exact ⟨h.1, rfl, h.2⟩

/-- Witness for `stopRun_fail_prefix`: the operation pool's stop fails with
cause 9 after the API server and synchronization engine stopped; the core
chain, chain observer, network transport and storage are never attempted. -/
theorem stopRun_fail_prefix_witness :
    stopRun behOpPoolStopFails =
      ⟨[SvcName.rpc, SvcName.sync] ++ [SvcName.opPool],
       [SvcName.rpc, SvcName.sync],
       okTrace [SvcName.rpc, SvcName.sync] ++
         [LifecycleEvent.call SvcName.opPool],
       some (JsError.err 9)⟩ ∧
    (JsError.err 9).isShutdownErr = false ∧
    ∀ t ∈ [SvcName.chain, SvcName.eth1, SvcName.network, SvcName.db],
      t ∉ (stopRun behOpPoolStopFails).invoked :=
  stopRun_fail_prefix behOpPoolStopFails [SvcName.rpc, SvcName.sync]
    SvcName.opPool [SvcName.chain, SvcName.eth1, SvcName.network, SvcName.db]
    9 rfl (by decide) rfl

/-- Claim C4, counterexample: when the synchronization engine's `stop`
fails (cause 2), the storage service's stop is invoked zero times — not
exactly once — so the claimed "each exactly once, even on failure" does
not hold. -/
theorem stopRun_not_each_exactly_once :
    behSyncStopFails SvcName.sync = some 2 ∧
    (stopRun behSyncStopFails).invoked.count SvcName.db = 0 ∧
    (stopRun behSyncStopFails).invoked.count SvcName.opPool = 0 ∧
    (stopRun behSyncStopFails).invoked.count SvcName.rpc = 1 := by
  decide

/-- Claim C4, amended: on a fully started orchestrator all of whose
services' stop calls succeed, `stop()` invokes each service's stop exactly
once, in the exact reverse of the start order (API server, synchronization
engine, operation pool, core chain, chain observer, network transport,
storage). -/
theorem stopRun_reverse_each_once (beh : SvcName → Option Nat)
    (h : ∀ s, beh s = none) :
    (stopRun beh).invoked = stopOrder ∧
    stopOrder = startOrder.reverse ∧
    ∀ s, (stopRun beh).invoked.count s = 1 := by
  have heq : stopRun beh = ⟨stopOrder, stopOrder, okTrace stopOrder, none⟩ :=
    runSeq_allOk beh stopOrder (fun s _ => h s)
  refine ⟨by rw [heq], by decide, ?_⟩
  intro s
  rw [heq]
  cases s <;> decide

/-- Witness for `stopRun_reverse_each_once` at the all-succeeding
behaviour. -/
theorem stopRun_reverse_each_once_witness :
    (stopRun behAllOk).invoked = stopOrder ∧
    stopOrder = startOrder.reverse ∧
    ∀ s, (stopRun behAllOk).invoked.count s = 1 :=
  stopRun_reverse_each_once behAllOk (fun _ => rfl)

/-- Claim C5: when every service's start succeeds, `start()` runs the fixed
sequence storage, network transport, chain observer, core chain, operation
pool, synchronization engine, API server, and the trace shows each step's
resolution before the next call — strictly sequential, never concurrent. -/
theorem startRun_fixed_sequential (beh : SvcName → Option Nat)
    (h : ∀ s, beh s = none) :
    startRun beh =
      ⟨startOrder, startOrder,
       [LifecycleEvent.call SvcName.db, LifecycleEvent.resolved SvcName.db,
        LifecycleEvent.call SvcName.network, LifecycleEvent.resolved SvcName.network,
        LifecycleEvent.call SvcName.eth1, LifecycleEvent.resolved SvcName.eth1,
        LifecycleEvent.call SvcName.chain, LifecycleEvent.resolved SvcName.chain,
        LifecycleEvent.call SvcName.opPool, LifecycleEvent.resolved SvcName.opPool,
        LifecycleEvent.call SvcName.sync, LifecycleEvent.resolved SvcName.sync,
        LifecycleEvent.call SvcName.rpc, LifecycleEvent.resolved SvcName.rpc],
       none⟩ := by
  rw [startRun, runSeq_allOk beh startOrder (fun s _ => h s)]
  rfl

/-- Witness for `startRun_fixed_sequential` at the all-succeeding
behaviour. -/
theorem startRun_fixed_sequential_witness :
    startRun behAllOk =
      ⟨startOrder, startOrder,
       [LifecycleEvent.call SvcName.db, LifecycleEvent.resolved SvcName.db,
        LifecycleEvent.call SvcName.network, LifecycleEvent.resolved SvcName.network,
        LifecycleEvent.call SvcName.eth1, LifecycleEvent.resolved SvcName.eth1,
        LifecycleEvent.call SvcName.chain, LifecycleEvent.resolved SvcName.chain,
        LifecycleEvent.call SvcName.opPool, LifecycleEvent.resolved SvcName.opPool,
        LifecycleEvent.call SvcName.sync, LifecycleEvent.resolved SvcName.sync,
        LifecycleEvent.call SvcName.rpc, LifecycleEvent.resolved SvcName.rpc],
       none⟩ :=
  startRun_fixed_sequential behAllOk (fun _ => rfl)

/-- Claim C6 (code bug): the sync RPC helper is constructed (source lines
120-129) before `this.network` (line 130) and `this.chain` (line 148) are
assigned, so it captures `undefined` for both — while the storage and
reputation-tracker references it captures, and every reference the
synchronization engine captures, are the orchestrator's own instances. -/
theorem beaconNode_syncRpc_captures_undefined :
    (constructBeaconNode ⟨[10], [20]⟩).syncRpcDeps =
      { db := some (constructBeaconNode ⟨[10], [20]⟩).db, chain := none,
        network := none,
        reps := some (constructBeaconNode ⟨[10], [20]⟩).reps } ∧
    (constructBeaconNode ⟨[10], [20]⟩).syncDeps =
      { db := some (constructBeaconNode ⟨[10], [20]⟩).db,
        eth1 := some (constructBeaconNode ⟨[10], [20]⟩).eth1,
        chain := some (constructBeaconNode ⟨[10], [20]⟩).chain,
        opPool := some (constructBeaconNode ⟨[10], [20]⟩).opPool,
        network := some (constructBeaconNode ⟨[10], [20]⟩).network,
        reps := some (constructBeaconNode ⟨[10], [20]⟩).reps,
        rpc := some (constructBeaconNode ⟨[10], [20]⟩).syncRpc } := by
  decide

/-- Claim C9, counterexample: the network transport's constructor receives
the libp2p derivation promise still pending — the orchestrator has not
resolved the identity/peer-descriptor/transport chain before constructing
the dependent service. -/
theorem beaconNode_network_gets_pending_libp2p :
    (constructBeaconNode ⟨[10], [20]⟩).networkLibp2pResolvedAtCapture = false :=
  rfl

/-- Claim C9, amended: for every configuration, the constructor creates the
multi-step libp2p derivation promise before constructing the dependent
services, but never awaits it: the network transport is constructed with
the promise still unresolved, and construction of the remaining services
proceeds without the chain having been resolved. -/
theorem beaconNode_libp2p_unresolved_during_construction (api : ApiSection) :
    (constructBeaconNode api).networkLibp2pResolvedAtCapture = false :=
  rfl

/-- Claim C10: construction unconditionally reads the first element of the
merged configuration's `api.transports` (JavaScript indexing, `undefined`
on an empty array — modelled as `List.head?`) and maps over `api.apis`;
`constructBeaconNode` is total, so no emptiness precondition is checked and
no `ConfigurationError` is ever reported. -/
theorem beaconNode_reads_api_section_unchecked (ts as : List Nat) :
    (constructBeaconNode ⟨ts, as⟩).rpcWsArg = ts.head? ∧
    (constructBeaconNode ⟨ts, as⟩).rpcApiDeps =
      as.map (fun _ =>
        ({ chain := some (constructBeaconNode ⟨ts, as⟩).chain,
           db := some (constructBeaconNode ⟨ts, as⟩).db,
           eth1 := some (constructBeaconNode ⟨ts, as⟩).eth1 } : ApiHandlerDeps)) ∧
    (constructBeaconNode ⟨[], as⟩).rpcWsArg = none :=
  ⟨rfl, rfl, rfl⟩

/-- Claim C7: composing any default tree with the empty override tree
yields the default tree, and applying the same composition a second time
yields an identical result (idempotence), for well-formed override trees
(distinct keys per record, as a JavaScript object has). The composition is
modelled as a pure function building a new tree, reflecting that
`deepmerge` mutates neither input. -/
theorem compose_empty_and_idem (ds os : Fields)
    (h : WFv (ConfigValue.record os) = true) :
    mergeVals (ConfigValue.record ds) (ConfigValue.record Fields.nil) =
      ConfigValue.record ds ∧
    mergeVals (mergeVals (ConfigValue.record ds) (ConfigValue.record os))
        (ConfigValue.record os) =
      mergeVals (ConfigValue.record ds) (ConfigValue.record os) := by
  constructor
  · rw [mergeVals_record_record, mergeInto_nil,
      show filterNotKeys Fields.nil ds = Fields.nil from rfl, appendF_nil]
  · exact mergeVals_idem _ _ h

/-- Witness for `compose_empty_and_idem` on the sample trees. -/
theorem compose_empty_and_idem_witness :
    mergeVals (ConfigValue.record sampleDefaults)
        (ConfigValue.record Fields.nil) =
      ConfigValue.record sampleDefaults ∧
    mergeVals
        (mergeVals (ConfigValue.record sampleDefaults)
          (ConfigValue.record sampleOverrides))
        (ConfigValue.record sampleOverrides) =
      mergeVals (ConfigValue.record sampleDefaults)
        (ConfigValue.record sampleOverrides) :=
  compose_empty_and_idem sampleDefaults sampleOverrides rfl

/-- Claim C8: at a key present in both trees, the composed record carries
the recursive merge of the two values, and whenever either value is not a
plain structural record that merge is the override value itself — wholesale
replacement, never a field-by-field merge — in particular when the default
at the key is an opaque handle and the override merely looks structural. -/
theorem compose_key_replaces_nonplain (ds os : Fields) (k : String)
    (dv ov : ConfigValue)
    (hd : lookupF ds k = some dv) (ho : lookupF os k = some ov) :
    lookupF (recordFieldsOf
        (mergeVals (ConfigValue.record ds) (ConfigValue.record os))) k =
      some (mergeVals dv ov) ∧
    ((isPlainObject dv = false ∨ isPlainObject ov = false) →
      mergeVals dv ov = ov) := by
  constructor
  · rw [mergeVals_record_record]
    simp only [recordFieldsOf]
    exact lookupF_appendF_left _ _ k _ (lookupF_mergeInto_both ds os k dv ov hd ho)
  · exact fun h2 => mergeVals_right_nonplain dv ov h2

/-- Witness for `compose_key_replaces_nonplain`: the default at `"eth1"` is
an opaque handle and the override is a plain-looking record; the composed
value at `"eth1"` is the override record wholesale. -/
theorem compose_key_replaces_nonplain_witness :
    lookupF (recordFieldsOf
        (mergeVals (ConfigValue.record sampleDefaults)
          (ConfigValue.record sampleOverrides))) "eth1" =
      some (mergeVals (ConfigValue.handle 0)
        (ConfigValue.record (Fields.cons "url" (ConfigValue.leaf 1) Fields.nil))) ∧
    ((isPlainObject (ConfigValue.handle 0) = false ∨
        isPlainObject (ConfigValue.record
          (Fields.cons "url" (ConfigValue.leaf 1) Fields.nil)) = false) →
      mergeVals (ConfigValue.handle 0)
          (ConfigValue.record (Fields.cons "url" (ConfigValue.leaf 1) Fields.nil)) =
        ConfigValue.record (Fields.cons "url" (ConfigValue.leaf 1) Fields.nil)) :=
  compose_key_replaces_nonplain sampleDefaults sampleOverrides "eth1"
    (ConfigValue.handle 0)
    (ConfigValue.record (Fields.cons "url" (ConfigValue.leaf 1) Fields.nil))
    rfl rfl

end Lodestar
